import Mathlib

/-!
Verification of the chunk data access layer, neighbor sampler and parallel
meshing pipeline of the bevy-voxels repository (src/voxel-engine).

The Rust code is shallowly embedded: machine integers (i32/u32) are modelled
as Int/Nat (Rust div_euclid/rem_euclid coincide with Lean Int division, which
is Euclidean); f32 quad coordinates are modelled as exact rationals (the claim
settled here only concerns the integer index lists); crossbeam channels are
modelled as the list of currently available messages; Weak references are
modelled as Option (some = upgrade succeeds); an AtomicBool is modelled as the
Bool it holds; hashbrown HashSet of task ids is modelled as a Finset of
naturals.  Fallible Rust functions return Except.
-/

deriving instance DecidableEq for Except

/-- Integer 2-vector, embedding bevy IVec2 (i32 coordinates as Int). -/
structure IVec2 where
  x : Int
  y : Int
deriving DecidableEq

/-- Integer 3-vector, embedding bevy IVec3 (i32 coordinates as Int). -/
structure IVec3 where
  x : Int
  y : Int
  z : Int
deriving DecidableEq

instance : Add IVec3 :=
  ⟨fun a b => ⟨a.x + b.x, a.y + b.y, a.z + b.z⟩⟩

/-- IVec3::ONE. -/
def IVec3.one : IVec3 := ⟨1, 1, 1⟩

/-- IVec3::ZERO. -/
def IVec3.zero : IVec3 := ⟨0, 0, 0⟩

/-- Modelled from the spec: Chunk::SIZE (topo/chunk.rs is not in the source
tree).  The spec fixes a power-of-two chunk edge length; the tests in
render/meshing/mod.rs (test_chunkspace_to_chunk_pos: f(15,15,15) = 0 and
f(15,15,16) = (0,0,1)) pin SIZE = 16. -/
def Chunk.SIZE : Int := 16

/-- Modelled from the spec: ChunkPos (topo/chunk.rs is not in the source
tree), an integer 3-vector identifying a chunk in chunk-space. -/
structure ChunkPos where
  x : Int
  y : Int
  z : Int
deriving DecidableEq

/-- Modelled from the spec: the From(IVec3) conversion for ChunkPos is the
identity wrap, as used by the test in render/meshing/mod.rs which builds the
center position with ivec3(-1, 2, -5).into(). -/
def ChunkPos.fromIVec3 (v : IVec3) : ChunkPos := ⟨v.x, v.y, v.z⟩

/-- Modelled from the spec: the Face enumeration of the six cube faces
(data/tile.rs is not in the source tree). -/
inductive Face where
  | Top
  | Bottom
  | North
  | East
  | South
  | West
deriving DecidableEq

/-- Modelled from the spec: Face::axis_direction (data/tile.rs is not in the
source tree) is the signed unit direction of the face along its fixed axis.
The in-tree tests of Neighbors::get pin the value -1 for the negative faces
(Bottom at (0,0) must resolve into neighbor chunk (0,-1,0), and Bottom at
(5,5) must read neighbor-local (5,15,5)). -/
def Face.axis_direction : Face → Int
  | .Top => 1
  | .Bottom => -1
  | .North => 1
  | .South => -1
  | .East => 1
  | .West => -1

/-- Modelled from the spec: Face::normal (data/tile.rs is not in the source
tree), the outward unit normal of the face, consistent with the axis layout
of Quad::positions in render/quad/mod.rs. -/
def Face.normal : Face → IVec3
  | .Top => ⟨0, 1, 0⟩
  | .Bottom => ⟨0, -1, 0⟩
  | .North => ⟨1, 0, 0⟩
  | .South => ⟨-1, 0, 0⟩
  | .East => ⟨0, 0, 1⟩
  | .West => ⟨0, 0, -1⟩

/-- Modelled from the spec: ivec_project_to_3d (render/meshing/greedy.rs is
not in the source tree) projects a 2D face-local coordinate into 3D using the
face's fixed axis and the given magnitude.  The axis layout matches
Quad::positions in render/quad/mod.rs (Top/Bottom fix y, North/South fix x,
East/West fix z) and every assertion of the in-tree test_neighbors test. -/
def ivec_project_to_3d (pos : IVec2) (face : Face) (mag : Int) : IVec3 :=
  match face with
  | .Top | .Bottom => ⟨pos.x, mag, pos.y⟩
  | .North | .South => ⟨mag, pos.x, pos.y⟩
  | .East | .West => ⟨pos.x, pos.y, mag⟩

/-- to_1d in render/meshing/mod.rs: flatten a 3D index with MAX = 3. -/
def to_1d (x y z : Nat) : Nat :=
  z * 3 * 3 + y * 3 + x

/-- ivec3_to_1d in render/meshing/mod.rs: convert the components to usize
(failing on negatives, as util::try_ivec3_to_usize_arr does) and flatten. -/
def ivec3_to_1d (v : IVec3) : Option Nat :=
  if 0 ≤ v.x ∧ 0 ≤ v.y ∧ 0 ≤ v.z then
    some (to_1d v.x.toNat v.y.toNat v.z.toNat)
  else
    none

/-- chkspace_pos_to_chk_pos in render/meshing/mod.rs: componentwise Euclidean
division by Chunk::SIZE (Rust div_euclid = Lean Int division). -/
def chkspace_pos_to_chk_pos (pos : IVec3) : IVec3 :=
  ⟨pos.x / Chunk.SIZE, pos.y / Chunk.SIZE, pos.z / Chunk.SIZE⟩

/-- place_chkspace_pos_origin_on_neighbor_origin in render/meshing/mod.rs:
componentwise Euclidean remainder by Chunk::SIZE (Rust rem_euclid = Lean Int
modulo). -/
def place_chkspace_pos_origin_on_neighbor_origin (pos : IVec3) : IVec3 :=
  ⟨pos.x % Chunk.SIZE, pos.y % Chunk.SIZE, pos.z % Chunk.SIZE⟩

/-- Modelled from the spec: NeighborsAccessError (render/meshing/error.rs is
not in the source tree): either an out-of-bounds rejection or a wrapped
neighbor-access error (the question-mark conversion applied to
access.get in Neighbors::internal_get). -/
inductive NeighborsAccessError (E : Type) where
  | OutOfBounds : NeighborsAccessError E
  | Access : E → NeighborsAccessError E
deriving DecidableEq

/-- NbResult in render/meshing/mod.rs. -/
def NbResult (T E : Type) : Type := Except (NeighborsAccessError E) T

instance (T E : Type) [DecidableEq T] [DecidableEq E] : DecidableEq (NbResult T E) :=
  inferInstanceAs (DecidableEq (Except (NeighborsAccessError E) T))

/-- Neighbors in render/meshing/mod.rs: the 27 optional read accessors around
one center chunk plus the fallback sample.  A chunk accessor (generic C with
ReadAccess in the source) is embedded as its get function, a map from a local
position to an Except result of value type V and error type E. -/
structure Neighbors (V E : Type) where
  pos : ChunkPos
  chunks : Fin 27 → Option (IVec3 → Except E V)
  default : V

/-- is_in_bounds in render/meshing/mod.rs: min = -ONE, max = SIZE + ONE,
accepted iff pos is componentwise ≥ min and < max. -/
def is_in_bounds (pos : IVec2) : Bool :=
  (decide (-1 ≤ pos.x) && decide (-1 ≤ pos.y)) &&
    (decide (pos.x < Chunk.SIZE + 1) && decide (pos.y < Chunk.SIZE + 1))

/-- The Some/None match at the end of Neighbors::internal_get: a missing
accessor yields the bundle default, a present accessor is consulted at the
position moved onto the neighbor's origin, its error wrapped by the
question-mark conversion. -/
def slot_result {V E : Type} (n : Neighbors V E) (i : Fin 27) (pos : IVec3) :
    NbResult V E :=
  match n.chunks i with
  | some access =>
    match access (place_chkspace_pos_origin_on_neighbor_origin pos) with
    | Except.ok v => Except.ok v
    | Except.error e => Except.error (NeighborsAccessError.Access e)
  | none => Except.ok n.default

/-- Neighbors::internal_get in render/meshing/mod.rs (pos is in chunkspace).
The dbg! calls of the source are no-ops and are dropped. -/
def Neighbors.internal_get {V E : Type} (n : Neighbors V E) (pos : IVec3) :
    NbResult V E :=
  if chkspace_pos_to_chk_pos pos = IVec3.zero then
    Except.error NeighborsAccessError.OutOfBounds
  else
    match ivec3_to_1d (chkspace_pos_to_chk_pos pos + IVec3.one) with
    | none => Except.error NeighborsAccessError.OutOfBounds
    | some chk_index =>
      if h : chk_index < 27 then
        slot_result n ⟨chk_index, h⟩ pos
      else
        Except.error NeighborsAccessError.OutOfBounds

/-- The magnitude block of Neighbors::get: mag starts as the axis direction
and is promoted to Chunk::SIZE when positive. -/
def face_projection_magnitude (face : Face) : Int :=
  if face.axis_direction > 0 then Chunk.SIZE else face.axis_direction

/-- The pos_3d block of Neighbors::get: project the face-local 2D position to
chunkspace with the face magnitude. -/
def get_pos_3d (face : Face) (pos : IVec2) : IVec3 :=
  ivec_project_to_3d pos face (face_projection_magnitude face)

/-- Neighbors::get in render/meshing/mod.rs. -/
def Neighbors.get {V E : Type} (n : Neighbors V E) (face : Face) (pos : IVec2) :
    NbResult V E :=
  if ¬ is_in_bounds pos then
    Except.error NeighborsAccessError.OutOfBounds
  else
    n.internal_get (get_pos_3d face pos)

/-- OutOfBounds unit error struct of topo/storage (used by
NeighborsBuilder::set_neighbor). -/
structure OOB where
deriving DecidableEq

/-- NeighborsBuilder in render/meshing/mod.rs. -/
structure NeighborsBuilder (V E : Type) where
  inner : Neighbors V E

/-- NeighborsBuilder::new. -/
def NeighborsBuilder.new {V E : Type} (pos : ChunkPos) (dflt : V) :
    NeighborsBuilder V E :=
  ⟨{ pos := pos, chunks := fun _ => none, default := dflt }⟩

/-- NeighborsBuilder::set_neighbor in render/meshing/mod.rs: reject when the
argument, converted to a ChunkPos, equals the stored center position; then
index the 27-slot array at pos + ONE and store the accessor there. -/
def NeighborsBuilder.set_neighbor {V E : Type} (b : NeighborsBuilder V E)
    (pos : IVec3) (access : IVec3 → Except E V) :
    Except OOB (NeighborsBuilder V E) :=
  if ChunkPos.fromIVec3 pos = b.inner.pos then
    Except.error ⟨⟩
  else
    match ivec3_to_1d (pos + IVec3.one) with
    | none => Except.error ⟨⟩
    | some idx =>
      if h : idx < 27 then
        Except.ok ⟨{ b.inner with
          chunks := fun j => if j = ⟨idx, h⟩ then some access else b.inner.chunks j }⟩
      else
        Except.error ⟨⟩

/-- NeighborsBuilder::build. -/
def NeighborsBuilder.build {V E : Type} (b : NeighborsBuilder V E) :
    Neighbors V E :=
  b.inner

/-- Modelled from the spec: ChunkRefAccessError (topo/error.rs is not in the
source tree); Unloaded is the failure of upgrading a dead weak reference. -/
inductive ChunkRefAccessError where
  | Unloaded
deriving DecidableEq

/-- ChunkRef in topo/chunk_ref.rs: a weak reference to the chunk contents (of
abstract type K) and a weak reference to the shared dirty flag, plus the
chunk position.  A weak reference is embedded as an Option that is some
exactly when the Rust upgrade would succeed, and the AtomicBool as the Bool
it holds. -/
structure ChunkRef (K : Type) where
  chunk : Option K
  changed : Option Bool
  pos : ChunkPos

/-- ChunkRef::treat_as_changed in topo/chunk_ref.rs: upgrade the flag weak
reference or fail with Unloaded, then store true.  State passing replaces the
atomic store: the result carries the updated reference. -/
def ChunkRef.treat_as_changed {K : Type} (r : ChunkRef K) :
    Except ChunkRefAccessError (ChunkRef K) :=
  match r.changed with
  | none => Except.error ChunkRefAccessError.Unloaded
  | some _ => Except.ok { r with changed := some true }

/-- ChunkRef::with_access in topo/chunk_ref.rs: upgrade the chunk weak
reference (fail with Unloaded), mark the chunk dirty via treat_as_changed
(which can also fail with Unloaded), then run the closure with write access
to the chunk contents.  The closure is embedded as K → U × K: it may read and
replace the contents, mirroring the combined read/write capability. -/
def ChunkRef.with_access {K U : Type} (r : ChunkRef K) (f : K → U × K) :
    Except ChunkRefAccessError U × ChunkRef K :=
  match r.chunk with
  | none => (Except.error ChunkRefAccessError.Unloaded, r)
  | some c =>
    match r.treat_as_changed with
    | Except.error e => (Except.error e, r)
    | Except.ok r2 =>
      (Except.ok (f c).1, { r2 with chunk := some (f c).2 })

/-- ChunkRef::with_read_access in topo/chunk_ref.rs: upgrade the chunk weak
reference (fail with Unloaded) and run the closure with read-only access; the
dirty flag is not touched.  The closure is embedded as K → U: it can only
observe the contents. -/
def ChunkRef.with_read_access {K U : Type} (r : ChunkRef K) (f : K → U) :
    Except ChunkRefAccessError U × ChunkRef K :=
  match r.chunk with
  | none => (Except.error ChunkRefAccessError.Unloaded, r)
  | some c => (Except.ok (f c), r)

/-- MesherWorkerOutput in render/mesh_builder.rs (the mesh payload type is
abstract M, standing for MesherOutput). -/
structure MesherWorkerOutput (M : Type) where
  pos : ChunkPos
  id : Nat
  output : M

/-- ChunkMesh of render/mesh.rs as used by finished_meshes: a chunk position
together with the built mesh. -/
structure ChunkMesh (M : Type) where
  pos : ChunkPos
  mesh : M
deriving DecidableEq

/-- BuildMeshCommand in render/mesh_builder.rs (chunk handle and adjacency
payload kept abstract as R and A). -/
structure BuildMeshCommand (R A : Type) where
  chunk_ref : R
  adjacency : A
  id : Nat

/-- MesherWorkerCommand in render/mesh_builder.rs. -/
inductive MesherWorkerCommand (R A : Type) where
  | Build : BuildMeshCommand R A → MesherWorkerCommand R A
  | Shutdown : MesherWorkerCommand R A

/-- ParallelMeshBuilder in render/mesh_builder.rs, restricted to the state
the settled claims touch: the command channel and result channel are embedded
as the lists of currently queued/available messages, and the pending task set
as a Finset of ids (MeshingTaskId wraps u32; ids are modelled as Nat with the
u32 wrap made explicit where the source can overflow). -/
structure ParallelMeshBuilder (R A M : Type) where
  cmd_sender : List (MesherWorkerCommand R A)
  mesh_receiver : List (MesherWorkerOutput M)
  pending_tasks : Finset Nat

/-- ParallelMeshBuilder::unique_task_id in render/mesh_builder.rs: take the
largest pending id (or 0 when none), scan the ids 0 ..= max + 1 in order and
return the first id not pending; none models the panic at the end of the
scan.  max + 1 is u32 arithmetic, hence the explicit wrap modulo 2^32. -/
def ParallelMeshBuilder.unique_task_id {R A M : Type}
    (s : ParallelMeshBuilder R A M) : Option Nat :=
  (List.range
      (((if h : s.pending_tasks.Nonempty then s.pending_tasks.max' h else 0) + 1) % 2 ^ 32 + 1)).find?
    (fun id => decide (id ∉ s.pending_tasks))

/-- ParallelMeshBuilder::send_cmd: enqueue one command on the channel. -/
def ParallelMeshBuilder.send_cmd {R A M : Type} (s : ParallelMeshBuilder R A M)
    (cmd : MesherWorkerCommand R A) : ParallelMeshBuilder R A M :=
  { s with cmd_sender := s.cmd_sender ++ [cmd] }

/-- ParallelMeshBuilder::add_pending_task. -/
def ParallelMeshBuilder.add_pending_task {R A M : Type}
    (s : ParallelMeshBuilder R A M) (id : Nat) : ParallelMeshBuilder R A M :=
  { s with pending_tasks := insert id s.pending_tasks }

/-- ParallelMeshBuilder::remove_pending_task. -/
def ParallelMeshBuilder.remove_pending_task {R A M : Type}
    (s : ParallelMeshBuilder R A M) (id : Nat) : ParallelMeshBuilder R A M :=
  { s with pending_tasks := s.pending_tasks.erase id }

/-- ParallelMeshBuilder::queue_chunk in render/mesh_builder.rs: allocate a
fresh id, record it pending, enqueue the build command, return the id.  none
propagates the (unreachable) allocator panic. -/
def ParallelMeshBuilder.queue_chunk {R A M : Type} (s : ParallelMeshBuilder R A M)
    (chunk_ref : R) (adjacency : A) : Option (Nat × ParallelMeshBuilder R A M) :=
  match s.unique_task_id with
  | none => none
  | some id =>
    some (id, (s.add_pending_task id).send_cmd
      (MesherWorkerCommand.Build ⟨chunk_ref, adjacency, id⟩))

/-- The while-let try_recv loop of ParallelMeshBuilder::finished_meshes: take
every available worker response in arrival order, drop its id from the
pending set and append the ChunkMesh to the batch. -/
def drain_meshes {M : Type} (queue : List (MesherWorkerOutput M))
    (pending : Finset Nat) (acc : List (ChunkMesh M)) :
    List (ChunkMesh M) × Finset Nat :=
  match queue with
  | [] => (acc, pending)
  | r :: rest => drain_meshes rest (pending.erase r.id) (acc ++ [⟨r.pos, r.output⟩])

/-- ParallelMeshBuilder::finished_meshes in render/mesh_builder.rs. -/
def ParallelMeshBuilder.finished_meshes {R A M : Type}
    (s : ParallelMeshBuilder R A M) :
    List (ChunkMesh M) × ParallelMeshBuilder R A M :=
  ((drain_meshes s.mesh_receiver s.pending_tasks []).1,
   { s with
      pending_tasks := (drain_meshes s.mesh_receiver s.pending_tasks []).2,
      mesh_receiver := [] })

/-- 2D rational vector standing in for bevy Vec2 (f32); the f32 arithmetic of
the quad builder on the values reached here is exact. -/
structure Vec2Q where
  x : Rat
  y : Rat
deriving DecidableEq

/-- 3D rational vector standing in for bevy Vec3 (f32). -/
structure Vec3Q where
  x : Rat
  y : Rat
  z : Rat
deriving DecidableEq

/-- Quad in render/quad/mod.rs: a 2D rectangle in face-local space. -/
structure Quad where
  x : Rat
  y : Rat
  width : Rat
  height : Rat
deriving DecidableEq

/-- Quad::min. -/
def Quad.min (q : Quad) : Vec2Q := ⟨q.x, q.y⟩

/-- Quad::max. -/
def Quad.max (q : Quad) : Vec2Q := ⟨q.x + q.width, q.y + q.height⟩

/-- Quad::positions in render/quad/mod.rs: the four corners 0..3, projected
to 3D on the face at the given magnitude. -/
def Quad.positions (q : Quad) (face : Face) (mag : Rat) : List Vec3Q :=
  let mn := q.min
  let mx := q.max
  let non_rotated : List Vec2Q := [⟨mn.x, mx.y⟩, ⟨mx.x, mx.y⟩, ⟨mn.x, mn.y⟩, ⟨mx.x, mn.y⟩]
  non_rotated.map (fun v =>
    match face with
    | .Top => ⟨v.x, mag + 1, v.y⟩
    | .Bottom => ⟨v.x, mag, v.y⟩
    | .North => ⟨mag + 1, v.x, v.y⟩
    | .East => ⟨v.x, v.y, mag + 1⟩
    | .South => ⟨mag, v.x, v.y⟩
    | .West => ⟨v.x, v.y, mag⟩)

/-- consts::FLIP_UV_X in render/quad/mod.rs. -/
def FLIP_UV_X : Nat := 4

/-- consts::FLIP_UV_Y in render/quad/mod.rs. -/
def FLIP_UV_Y : Nat := 8

/-- consts::OCCLUSION in render/quad/mod.rs. -/
def OCCLUSION : Nat := 16

/-- QuadTextureData in render/quad/mod.rs.  The texture registry id and the
2-bit FaceTextureRotation (data/texture.rs is not in the source tree) are
embedded as the naturals their inner() accessors yield. -/
structure QuadTextureData where
  texture : Nat
  rotation : Nat
  flip_uv_x : Bool
  flip_uv_y : Bool
deriving DecidableEq

/-- QuadTextureData::bitfield in render/quad/mod.rs. -/
def QuadTextureData.bitfield (t : QuadTextureData) : Nat :=
  let bits := t.rotation
  let bits := if t.flip_uv_x then bits ||| FLIP_UV_X else bits
  let bits := if t.flip_uv_y then bits ||| FLIP_UV_Y else bits
  bits

/-- MeshableQuad in render/quad/mod.rs. -/
structure MeshableQuad where
  magnitude : Rat
  face : Face
  quad : Quad
  quad_tex : QuadTextureData

/-- Modelled from the spec: ChunkMeshAttributes (render/mesh_builder.rs of
the quad module's generation is not in the source tree); its fields are the
attribute lists extended by MeshableQuad::add_to_mesh.  Normals are the exact
integer face normals (the source stores them as f32 vectors). -/
structure ChunkMeshAttributes where
  indices : List Nat
  normals : List IVec3
  positions : List Vec3Q
  misc_data : List Nat
  textures : List Nat

/-- MeshableQuad::add_to_mesh in render/quad/mod.rs: emit two triangles with
a face-dependent index pattern offset by the base vertex index idx, four
normals, four corner positions, four bitfields (corner 2 carries the
OCCLUSION marker bit) and four texture indices. -/
def MeshableQuad.add_to_mesh (q : MeshableQuad) (idx : Nat)
    (mesh : ChunkMeshAttributes) : ChunkMeshAttributes :=
  let normal := q.face.normal
  let positions := q.quad.positions q.face q.magnitude
  let indices :=
    (match q.face with
     | .Bottom | .East | .North => [0, 2, 1, 1, 2, 3]
     | _ => [0, 1, 2, 1, 3, 2]).map (fun i => i + idx)
  let bitfields :=
    [q.quad_tex.bitfield, q.quad_tex.bitfield,
     q.quad_tex.bitfield ||| OCCLUSION, q.quad_tex.bitfield]
  { indices := mesh.indices ++ indices
    normals := mesh.normals ++ [normal, normal, normal, normal]
    positions := mesh.positions ++ positions
    misc_data := mesh.misc_data ++ bitfields
    textures := mesh.textures ++
      [q.quad_tex.texture, q.quad_tex.texture, q.quad_tex.texture, q.quad_tex.texture] }

/-- An everywhere-absent neighbor bundle over Nat samples, used to evaluate
the embedded code at concrete inputs. -/
def demo_neighbors : Neighbors Nat Unit :=
  { pos := ⟨0, 0, 0⟩, chunks := fun _ => none, default := 7 }

/-- A concrete accessor used to evaluate the embedded code. -/
def demo_access : IVec3 → Except Unit Nat :=
  fun v => Except.ok (v.x.toNat + 100 * v.y.toNat + 10000 * v.z.toNat)

/-- A neighbor bundle holding demo_access in slot 10 (chunk offset (0,-1,0),
the Bottom face neighbor, flattened as to_1d 1 0 1). -/
def demo_neighbors2 : Neighbors Nat Unit :=
  { pos := ⟨0, 0, 0⟩
    chunks := fun i => if i.val = 10 then some demo_access else none
    default := 7 }

lemma IVec3.add_def (a b : IVec3) : a + b = ⟨a.x + b.x, a.y + b.y, a.z + b.z⟩ := rfl

/-- C4: whenever ChunkRef::with_access (the write-capability constructor)
returns Ok, the chunk's dirty flag is true on return, even if the caller's
closure performed no mutation. -/
theorem with_access_marks_dirty {K U : Type} (r : ChunkRef K) (f : K → U × K)
    (u : U) (r2 : ChunkRef K) (h : r.with_access f = (Except.ok u, r2)) :
    r2.changed = some true := by
  unfold ChunkRef.with_access at h
  cases hc : r.chunk with
  | none => rw [hc] at h; simp at h
  | some c =>
    rw [hc] at h
    unfold ChunkRef.treat_as_changed at h
    cases hch : r.changed with
    | none => rw [hch] at h; simp at h
    | some b =>
      rw [hch] at h
      simp only [Prod.mk.injEq] at h
      rw [← h.2]

/-- Witness for C4 at a concrete loaded chunk with a clean flag and an
identity closure. -/
theorem with_access_marks_dirty_witness :
    (ChunkRef.mk (some 5) (some true) ⟨0, 0, 0⟩ : ChunkRef Nat).changed = some true :=
  with_access_marks_dirty ⟨some 5, some false, ⟨0, 0, 0⟩⟩ (fun c => (c, c)) 5
    ⟨some 5, some true, ⟨0, 0, 0⟩⟩ rfl

/-- C8: ChunkRef::with_read_access never changes the dirty flag, whether the
call succeeds or fails with Unloaded; the closure receives only a read
capability (its type K → U cannot replace the contents). -/
theorem with_read_access_preserves_dirty {K U : Type} (r : ChunkRef K) (f : K → U) :
    ((r.with_read_access f).2).changed = r.changed := by
  rcases r with ⟨ch, fl, p⟩
  cases ch <;> rfl

lemma range_find_min_absent (S : Finset Nat) (n : Nat)
    (hex : ∃ k, k < n ∧ k ∉ S) :
    ∃ m, (List.range n).find? (fun id => decide (id ∉ S)) = some m ∧
      m ∉ S ∧ ∀ j, j < m → j ∈ S := by
  induction n with
  | zero =>
    obtain ⟨k, hk, -⟩ := hex
    exact absurd hk (Nat.not_lt_zero k)
  | succ n ih =>
    by_cases hall : ∀ j, j < n → j ∈ S
    · have hn : n ∉ S := by
        obtain ⟨k, hk1, hk2⟩ := hex
        have hkn : k = n := by
          rcases Nat.lt_succ_iff_lt_or_eq.mp hk1 with h | h
          · exact absurd (hall k h) hk2
          · exact h
        rwa [hkn] at hk2
      refine ⟨n, ?_, hn, hall⟩
      rw [List.range_succ, List.find?_append]
      have h1 : (List.range n).find? (fun id => decide (id ∉ S)) = none := by
        rw [List.find?_eq_none]
        intro x hx
        simp only [List.mem_range] at hx
        simp only [decide_eq_true_eq]
        exact fun hnot => hnot (hall x hx)
      rw [h1]
      simp [List.find?, hn]
    · push_neg at hall
      obtain ⟨j, hj1, hj2⟩ := hall
      obtain ⟨m, hm1, hm2, hm3⟩ := ih ⟨j, hj1, hj2⟩
      refine ⟨m, ?_, hm2, hm3⟩
      rw [List.range_succ, List.find?_append, hm1]
      rfl

lemma unique_task_id_spec {R A M : Type} (s : ParallelMeshBuilder R A M)
    (h : ∀ k ∈ s.pending_tasks, k + 1 < 2 ^ 32) :
    ∃ id, s.unique_task_id = some id ∧ id ∉ s.pending_tasks ∧
      ∀ j, j < id → j ∈ s.pending_tasks := by
  unfold ParallelMeshBuilder.unique_task_id
  by_cases hne : s.pending_tasks.Nonempty
  · rw [dif_pos hne]
    have hmem := s.pending_tasks.max'_mem hne
    have hlt : s.pending_tasks.max' hne + 1 < 2 ^ 32 := h _ hmem
    rw [Nat.mod_eq_of_lt hlt]
    apply range_find_min_absent
    refine ⟨s.pending_tasks.max' hne + 1, by omega, fun hin => ?_⟩
    have := Finset.le_max' s.pending_tasks _ hin
    omega
  · rw [dif_neg hne]
    have h1 : (0 + 1) % 2 ^ 32 = 1 := by norm_num
    rw [h1]
    apply range_find_min_absent
    exact ⟨0, by omega, fun hin => hne ⟨0, hin⟩⟩

/-- C5: queue_chunk allocates the smallest id not in the pending set, which
is therefore never an id still pending, and records it as pending in the
returned state.  The hypothesis rules out u32 overflow of max + 1, which the
claim presupposes for reachable pending-set sizes. -/
theorem queue_chunk_fresh_id {R A M : Type} (s : ParallelMeshBuilder R A M)
    (cr : R) (adj : A) (h : ∀ k ∈ s.pending_tasks, k + 1 < 2 ^ 32) :
    ∃ id s2, s.queue_chunk cr adj = some (id, s2) ∧
      id ∉ s.pending_tasks ∧ (∀ j, j < id → j ∈ s.pending_tasks) ∧
      s2.pending_tasks = insert id s.pending_tasks := by
  obtain ⟨id, hid, hno, hmin⟩ := unique_task_id_spec s h
  refine ⟨id, (s.add_pending_task id).send_cmd
    (MesherWorkerCommand.Build ⟨cr, adj, id⟩), ?_, hno, hmin, rfl⟩
  unfold ParallelMeshBuilder.queue_chunk
  rw [hid]

/-- Witness for C5 at the concrete pending set of ids 0, 1, 2. -/
theorem queue_chunk_fresh_id_witness :
    ∃ id s2, (ParallelMeshBuilder.queue_chunk (R := Unit) (A := Unit) (M := Unit)
        ⟨[], [], {0, 1, 2}⟩ () ()) = some (id, s2) ∧
      id ∉ ({0, 1, 2} : Finset Nat) ∧
      (∀ j, j < id → j ∈ ({0, 1, 2} : Finset Nat)) ∧
      s2.pending_tasks = insert id {0, 1, 2} :=
  queue_chunk_fresh_id ⟨[], [], {0, 1, 2}⟩ () () (by decide)

/-- C10: the panic branch of unique_task_id is unreachable: for any pending
set whose largest id does not overflow u32 when incremented (which holds for
every reachable pending-set size), the scan over 0 ..= max + 1 finds an id
not in the set. -/
theorem unique_task_id_no_panic {R A M : Type} (s : ParallelMeshBuilder R A M)
    (h : ∀ k ∈ s.pending_tasks, k + 1 < 2 ^ 32) :
    ∃ id, s.unique_task_id = some id ∧ id ∉ s.pending_tasks := by
  obtain ⟨id, h1, h2, -⟩ := unique_task_id_spec s h
  exact ⟨id, h1, h2⟩

/-- Witness for C10 at the concrete pending set of ids 0, 1, 3. -/
theorem unique_task_id_no_panic_witness :
    ∃ id, (ParallelMeshBuilder.mk (R := Unit) (A := Unit) (M := Unit)
        [] [] {0, 1, 3}).unique_task_id = some id ∧
      id ∉ ({0, 1, 3} : Finset Nat) :=
  unique_task_id_no_panic ⟨[], [], {0, 1, 3}⟩ (by decide)

lemma drain_meshes_eq {M : Type} (queue : List (MesherWorkerOutput M))
    (pending : Finset Nat) (acc : List (ChunkMesh M)) :
    drain_meshes queue pending acc =
      (acc ++ queue.map (fun r => ⟨r.pos, r.output⟩),
       queue.foldl (fun P r => P.erase r.id) pending) := by
  induction queue generalizing pending acc with
  | nil => simp [drain_meshes]
  | cons r rest ih => simp [drain_meshes, ih]

lemma foldl_erase_mem {M : Type} (queue : List (MesherWorkerOutput M))
    (pending : Finset Nat) (i : Nat) :
    (i ∈ queue.foldl (fun P r => P.erase r.id) pending) ↔
      (i ∈ pending ∧ i ∉ queue.map MesherWorkerOutput.id) := by
  induction queue generalizing pending with
  | nil => simp
  | cons r rest ih =>
    simp only [List.foldl_cons, ih, Finset.mem_erase, List.map_cons, List.mem_cons]
    tauto

/-- C6: finished_meshes drains exactly the currently available results in
arrival order, removes each drained id from the pending set, empties the
result queue, and (being a total function of the state) returns the empty
batch when no result is available, without blocking. -/
theorem finished_meshes_drains_all {R A M : Type} (s : ParallelMeshBuilder R A M) :
    (s.finished_meshes).1 = s.mesh_receiver.map (fun r => ⟨r.pos, r.output⟩) ∧
    (s.finished_meshes).2.mesh_receiver = [] ∧
    ∀ i, i ∈ (s.finished_meshes).2.pending_tasks ↔
      (i ∈ s.pending_tasks ∧ i ∉ s.mesh_receiver.map MesherWorkerOutput.id) := by
  refine ⟨?_, rfl, fun i => ?_⟩
  · show (drain_meshes s.mesh_receiver s.pending_tasks []).1 = _
    rw [drain_meshes_eq]
    simp
  · show i ∈ (drain_meshes s.mesh_receiver s.pending_tasks []).2 ↔ _
    rw [drain_meshes_eq]
    exact foldl_erase_mem _ _ _

lemma get_pos_3d_Top (pos : IVec2) : get_pos_3d Face.Top pos = ⟨pos.x, 16, pos.y⟩ := rfl

lemma get_pos_3d_Bottom (pos : IVec2) : get_pos_3d Face.Bottom pos = ⟨pos.x, -1, pos.y⟩ := rfl

lemma get_pos_3d_North (pos : IVec2) : get_pos_3d Face.North pos = ⟨16, pos.x, pos.y⟩ := rfl

lemma get_pos_3d_South (pos : IVec2) : get_pos_3d Face.South pos = ⟨-1, pos.x, pos.y⟩ := rfl

lemma get_pos_3d_East (pos : IVec2) : get_pos_3d Face.East pos = ⟨pos.x, pos.y, 16⟩ := rfl

lemma get_pos_3d_West (pos : IVec2) : get_pos_3d Face.West pos = ⟨pos.x, pos.y, -1⟩ := rfl

lemma is_in_bounds_iff (pos : IVec2) :
    is_in_bounds pos = true ↔ (-1 ≤ pos.x ∧ pos.x ≤ 16 ∧ -1 ≤ pos.y ∧ pos.y ≤ 16) := by
  simp only [is_in_bounds, Chunk.SIZE, Bool.and_eq_true, decide_eq_true_eq]
  omega

lemma internal_get_halo {V E : Type} (n : Neighbors V E) (p : IVec3)
    (hx1 : -1 ≤ p.x) (hx2 : p.x ≤ 16) (hy1 : -1 ≤ p.y) (hy2 : p.y ≤ 16)
    (hz1 : -1 ≤ p.z) (hz2 : p.z ≤ 16)
    (hb : p.x = -1 ∨ p.x = 16 ∨ p.y = -1 ∨ p.y = 16 ∨ p.z = -1 ∨ p.z = 16) :
    ∃ i : Fin 27,
      ivec3_to_1d (chkspace_pos_to_chk_pos p + IVec3.one) = some i.val ∧
      chkspace_pos_to_chk_pos p ≠ IVec3.zero ∧
      n.internal_get p = slot_result n i p := by
  have hnz0 : ¬ (p.x / 16 = 0 ∧ p.y / 16 = 0 ∧ p.z / 16 = 0) := by
    rcases hb with h | h | h | h | h | h <;> omega
  have hnz : chkspace_pos_to_chk_pos p ≠ IVec3.zero := by
    intro heq
    simp only [chkspace_pos_to_chk_pos, Chunk.SIZE, IVec3.zero, IVec3.mk.injEq] at heq
    exact hnz0 heq
  have hsome : ivec3_to_1d (chkspace_pos_to_chk_pos p + IVec3.one) =
      some (to_1d (p.x / 16 + 1).toNat (p.y / 16 + 1).toNat (p.z / 16 + 1).toNat) := by
    have h1 : chkspace_pos_to_chk_pos p + IVec3.one =
        ⟨p.x / 16 + 1, p.y / 16 + 1, p.z / 16 + 1⟩ := by
      simp [chkspace_pos_to_chk_pos, Chunk.SIZE, IVec3.add_def, IVec3.one]
    rw [h1]
    simp only [ivec3_to_1d]
    split
    · rfl
    · rename_i hcond
      exact absurd ⟨by omega, by omega, by omega⟩ hcond
  have hk : to_1d (p.x / 16 + 1).toNat (p.y / 16 + 1).toNat (p.z / 16 + 1).toNat < 27 := by
    simp only [to_1d]
    omega
  refine ⟨⟨_, hk⟩, hsome, hnz, ?_⟩
  unfold Neighbors.internal_get
  simp only [hsome, if_neg hnz, dif_pos hk]

lemma get_halo_routing {V E : Type} (n : Neighbors V E) (face : Face) (pos : IVec2)
    (hx1 : -1 ≤ pos.x) (hx2 : pos.x ≤ 16) (hy1 : -1 ≤ pos.y) (hy2 : pos.y ≤ 16) :
    ∃ i : Fin 27,
      ivec3_to_1d (chkspace_pos_to_chk_pos (get_pos_3d face pos) + IVec3.one) = some i.val ∧
      chkspace_pos_to_chk_pos (get_pos_3d face pos) ≠ IVec3.zero ∧
      n.get face pos = slot_result n i (get_pos_3d face pos) := by
  have hin : is_in_bounds pos = true := (is_in_bounds_iff pos).mpr ⟨hx1, hx2, hy1, hy2⟩
  have hget : n.get face pos = n.internal_get (get_pos_3d face pos) := by
    unfold Neighbors.get
    rw [if_neg (not_not_intro hin)]
  cases face
  case Top =>
    rw [get_pos_3d_Top] at hget ⊢
    obtain ⟨i, h1, h2, h3⟩ := internal_get_halo n ⟨pos.x, 16, pos.y⟩ hx1 hx2
      (by norm_num) (by norm_num) hy1 hy2 (Or.inr (Or.inr (Or.inr (Or.inl rfl))))
    exact ⟨i, h1, h2, hget.trans h3⟩
  case Bottom =>
    rw [get_pos_3d_Bottom] at hget ⊢
    obtain ⟨i, h1, h2, h3⟩ := internal_get_halo n ⟨pos.x, -1, pos.y⟩ hx1 hx2
      (by norm_num) (by norm_num) hy1 hy2 (Or.inr (Or.inr (Or.inl rfl)))
    exact ⟨i, h1, h2, hget.trans h3⟩
  case North =>
    rw [get_pos_3d_North] at hget ⊢
    obtain ⟨i, h1, h2, h3⟩ := internal_get_halo n ⟨16, pos.x, pos.y⟩
      (by norm_num) (by norm_num) hx1 hx2 hy1 hy2 (Or.inr (Or.inl rfl))
    exact ⟨i, h1, h2, hget.trans h3⟩
  case South =>
    rw [get_pos_3d_South] at hget ⊢
    obtain ⟨i, h1, h2, h3⟩ := internal_get_halo n ⟨-1, pos.x, pos.y⟩
      (by norm_num) (by norm_num) hx1 hx2 hy1 hy2 (Or.inl rfl)
    exact ⟨i, h1, h2, hget.trans h3⟩
  case East =>
    rw [get_pos_3d_East] at hget ⊢
    obtain ⟨i, h1, h2, h3⟩ := internal_get_halo n ⟨pos.x, pos.y, 16⟩ hx1 hx2 hy1 hy2
      (by norm_num) (by norm_num) (Or.inr (Or.inr (Or.inr (Or.inr (Or.inr rfl)))))
    exact ⟨i, h1, h2, hget.trans h3⟩
  case West =>
    rw [get_pos_3d_West] at hget ⊢
    obtain ⟨i, h1, h2, h3⟩ := internal_get_halo n ⟨pos.x, pos.y, -1⟩ hx1 hx2 hy1 hy2
      (by norm_num) (by norm_num) (Or.inr (Or.inr (Or.inr (Or.inr (Or.inl rfl)))))
    exact ⟨i, h1, h2, hget.trans h3⟩

/-- C1 (amended): for every face and every face-local position with both
coordinates in [-1, SIZE] (the half-open [-1, SIZE+1) accepted by
is_in_bounds), Neighbors::get resolves through the neighbor slot computed by
Euclidean division of the projected point and never returns OutOfBounds; any
position with a coordinate outside that range, in particular at -2, SIZE+1 or
SIZE+2, returns OutOfBounds. -/
theorem neighbors_get_halo_bounds {V E : Type} (n : Neighbors V E)
    (face : Face) (pos : IVec2) :
    ((-1 ≤ pos.x ∧ pos.x ≤ 16 ∧ -1 ≤ pos.y ∧ pos.y ≤ 16) →
      ∃ i : Fin 27,
        ivec3_to_1d (chkspace_pos_to_chk_pos (get_pos_3d face pos) + IVec3.one) = some i.val ∧
        n.get face pos = slot_result n i (get_pos_3d face pos) ∧
        n.get face pos ≠ Except.error NeighborsAccessError.OutOfBounds) ∧
    ((pos.x < -1 ∨ 16 < pos.x ∨ pos.y < -1 ∨ 16 < pos.y) →
      n.get face pos = Except.error NeighborsAccessError.OutOfBounds) := by
  constructor
  · rintro ⟨hx1, hx2, hy1, hy2⟩
    obtain ⟨i, h1, -, h3⟩ := get_halo_routing n face pos hx1 hx2 hy1 hy2
    refine ⟨i, h1, h3, ?_⟩
    rw [h3]
    cases hc : n.chunks i with
    | none => simp [slot_result, hc]
    | some access =>
      cases hacc : access (place_chkspace_pos_origin_on_neighbor_origin (get_pos_3d face pos)) with
      | ok v => simp [slot_result, hc, hacc]
      | error e =>
        simp only [slot_result, hc, hacc]
        intro hx
        injection hx with hx2
        exact NeighborsAccessError.noConfusion hx2
  · intro hout
    have hin : ¬ (is_in_bounds pos = true) := by
      rw [is_in_bounds_iff]
      rcases hout with h | h | h | h <;> omega
    unfold Neighbors.get
    rw [if_pos hin]

/-- Witness for C1 at the halo corner (-1, 0) (resolves, all neighbors
absent) and at (-2, 5) (rejected). -/
theorem neighbors_get_halo_bounds_witness :
    demo_neighbors.get Face.Bottom ⟨-1, 0⟩ ≠ Except.error NeighborsAccessError.OutOfBounds ∧
    demo_neighbors.get Face.Bottom ⟨-2, 5⟩ = Except.error NeighborsAccessError.OutOfBounds := by
  constructor
  · obtain ⟨i, -, -, h3⟩ :=
      (neighbors_get_halo_bounds demo_neighbors Face.Bottom ⟨-1, 0⟩).1 (by decide)
    exact h3
  · exact (neighbors_get_halo_bounds demo_neighbors Face.Bottom ⟨-2, 5⟩).2 (by decide)

/-- Counterexample to C1 as stated: a position with a coordinate exactly at
SIZE + 1 = 17 does not resolve to a neighbor, it is rejected as OutOfBounds
(is_in_bounds accepts only coordinates strictly below SIZE + 1; the in-tree
test asserts the same at (16, 17)). -/
theorem neighbors_get_rejects_size_plus_one :
    demo_neighbors.get Face.Bottom ⟨Chunk.SIZE + 1, 0⟩ =
      Except.error NeighborsAccessError.OutOfBounds := by decide

/-- Observer for C2: the coordinate of a chunkspace point on the fixed axis
of a face (y for Top/Bottom, x for North/South, z for East/West, the axis
layout of ivec_project_to_3d and Quad::positions). -/
def fixed_axis_coord (face : Face) (p : IVec3) : Int :=
  match face with
  | .Top | .Bottom => p.y
  | .North | .South => p.x
  | .East | .West => p.z

/-- C2 (amended): for every face and in-range position, the projected 3D
point has fixed-axis coordinate -1 when the face points in the negative
direction and SIZE when it points in the positive direction, and its
Euclidean division by SIZE is a nonzero offset in the 3x3x3 cube, so the
point lands inside exactly one of the 26 neighbor chunks. -/
theorem get_projection_into_neighbor (face : Face) (pos : IVec2)
    (h : -1 ≤ pos.x ∧ pos.x ≤ 16 ∧ -1 ≤ pos.y ∧ pos.y ≤ 16) :
    (face.axis_direction < 0 → fixed_axis_coord face (get_pos_3d face pos) = -1) ∧
    (0 < face.axis_direction → fixed_axis_coord face (get_pos_3d face pos) = Chunk.SIZE) ∧
    chkspace_pos_to_chk_pos (get_pos_3d face pos) ≠ IVec3.zero ∧
    (-1 ≤ (chkspace_pos_to_chk_pos (get_pos_3d face pos)).x ∧
     (chkspace_pos_to_chk_pos (get_pos_3d face pos)).x ≤ 1 ∧
     -1 ≤ (chkspace_pos_to_chk_pos (get_pos_3d face pos)).y ∧
     (chkspace_pos_to_chk_pos (get_pos_3d face pos)).y ≤ 1 ∧
     -1 ≤ (chkspace_pos_to_chk_pos (get_pos_3d face pos)).z ∧
     (chkspace_pos_to_chk_pos (get_pos_3d face pos)).z ≤ 1) := by
  obtain ⟨hx1, hx2, hy1, hy2⟩ := h
  cases face <;>
    simp only [get_pos_3d_Top, get_pos_3d_Bottom, get_pos_3d_North, get_pos_3d_South,
      get_pos_3d_East, get_pos_3d_West, fixed_axis_coord, Face.axis_direction,
      chkspace_pos_to_chk_pos, Chunk.SIZE, IVec3.zero, ne_eq, IVec3.mk.injEq,
      implies_true, and_true, true_and] <;>
    omega

/-- Witness for C2 at the Bottom face and position (0, 0). -/
theorem get_projection_into_neighbor_witness :
    fixed_axis_coord Face.Bottom (get_pos_3d Face.Bottom ⟨0, 0⟩) = -1 :=
  (get_projection_into_neighbor Face.Bottom ⟨0, 0⟩ (by decide)).1 (by decide)

/-- Counterexample to C2 as stated: for the negative-direction Bottom face
the projected point's fixed-axis coordinate is -1, not 0 (with coordinate 0
the point would floor-divide to the forbidden center offset (0,0,0)). -/
theorem negative_face_magnitude_not_zero :
    Face.Bottom.axis_direction < 0 ∧
    fixed_axis_coord Face.Bottom (get_pos_3d Face.Bottom ⟨0, 0⟩) = -1 ∧
    fixed_axis_coord Face.Bottom (get_pos_3d Face.Bottom ⟨0, 0⟩) ≠ 0 ∧
    chkspace_pos_to_chk_pos ⟨0, 0, 0⟩ = IVec3.zero := by decide

/-- C3: for every in-range query, the projected point selects one neighbor
slot; when that slot holds no accessor the bundle default is returned (never
an error), and when it holds one, the call is forwarded to it at the point
taken componentwise modulo SIZE with Euclidean remainder (each component lies
in [0, SIZE)). -/
theorem neighbors_missing_fallback_forward {V E : Type} (n : Neighbors V E)
    (face : Face) (pos : IVec2)
    (h : -1 ≤ pos.x ∧ pos.x ≤ 16 ∧ -1 ≤ pos.y ∧ pos.y ≤ 16) :
    ∃ i : Fin 27,
      ivec3_to_1d (chkspace_pos_to_chk_pos (get_pos_3d face pos) + IVec3.one) = some i.val ∧
      (n.chunks i = none → n.get face pos = Except.ok n.default) ∧
      (∀ access, n.chunks i = some access →
        n.get face pos =
          match access (place_chkspace_pos_origin_on_neighbor_origin (get_pos_3d face pos)) with
          | Except.ok v => Except.ok v
          | Except.error e => Except.error (NeighborsAccessError.Access e)) ∧
      (0 ≤ (place_chkspace_pos_origin_on_neighbor_origin (get_pos_3d face pos)).x ∧
       (place_chkspace_pos_origin_on_neighbor_origin (get_pos_3d face pos)).x < Chunk.SIZE ∧
       0 ≤ (place_chkspace_pos_origin_on_neighbor_origin (get_pos_3d face pos)).y ∧
       (place_chkspace_pos_origin_on_neighbor_origin (get_pos_3d face pos)).y < Chunk.SIZE ∧
       0 ≤ (place_chkspace_pos_origin_on_neighbor_origin (get_pos_3d face pos)).z ∧
       (place_chkspace_pos_origin_on_neighbor_origin (get_pos_3d face pos)).z < Chunk.SIZE) := by
  obtain ⟨hx1, hx2, hy1, hy2⟩ := h
  obtain ⟨i, h1, -, h3⟩ := get_halo_routing n face pos hx1 hx2 hy1 hy2
  refine ⟨i, h1, ?_, ?_, ?_⟩
  · intro hc
    rw [h3]
    unfold slot_result
    rw [hc]
  · intro access hc
    rw [h3]
    unfold slot_result
    rw [hc]
  · simp only [place_chkspace_pos_origin_on_neighbor_origin, Chunk.SIZE]
    refine ⟨by omega, by omega, by omega, by omega, by omega, by omega⟩

/-- Witness for C3: with every neighbor absent the default sample 7 is
returned at Bottom (0,0); with an accessor in the selected slot the call is
forwarded to it at the Euclidean remainder point (0,15,0). -/
theorem neighbors_missing_fallback_forward_witness :
    demo_neighbors.get Face.Bottom ⟨0, 0⟩ = Except.ok 7 ∧
    demo_neighbors2.get Face.Bottom ⟨0, 0⟩ = Except.ok 1500 := by
  constructor
  · obtain ⟨i, -, h2, -, -⟩ :=
      neighbors_missing_fallback_forward demo_neighbors Face.Bottom ⟨0, 0⟩ (by decide)
    exact h2 rfl
  · obtain ⟨i, h1, -, h3, -⟩ :=
      neighbors_missing_fallback_forward demo_neighbors2 Face.Bottom ⟨0, 0⟩ (by decide)
    have hx : ivec3_to_1d (chkspace_pos_to_chk_pos (get_pos_3d Face.Bottom ⟨0, 0⟩) + IVec3.one) =
        some 10 := by decide
    rw [hx] at h1
    have hv : i.val = 10 := (Option.some.inj h1).symm
    have hi : i = ⟨10, by norm_num⟩ := Fin.ext hv
    have hc : demo_neighbors2.chunks i = some demo_access := by
      rw [hi]; rfl
    rw [h3 demo_access hc]
    rfl

/-- The builder of the repository's own test_neighbors test: center chunk
position (-1, 2, -5). -/
def c7_builder : NeighborsBuilder Nat Unit :=
  NeighborsBuilder.new ⟨-1, 2, -5⟩ 0

/-- C7: evaluation of the code at the failing input.  set_neighbor compares
the offset argument (converted to a ChunkPos) against the center's absolute
chunk position, so for the test's center (-1, 2, -5) the center offset
(0,0,0) is accepted and stored in the center slot 13, instead of being
rejected with OutOfBounds; a builder whose center happens to be chunk
(0,0,0) does reject it, so the check depends on the center position. -/
theorem set_neighbor_center_offset_accepted :
    ((c7_builder.set_neighbor ⟨0, 0, 0⟩ demo_access).toOption.map
        (fun b2 => b2.inner.chunks ⟨13, by norm_num⟩)) = some (some demo_access) ∧
    ((NeighborsBuilder.new (V := Nat) (E := Unit) ⟨0, 0, 0⟩ 0).set_neighbor
        ⟨0, 0, 0⟩ demo_access).toOption = none := by
  exact ⟨rfl, rfl⟩

/-- C9: MeshableQuad::add_to_mesh appends exactly six indices, offset by the
base vertex index, whose pattern is {0,2,1,1,2,3} for the Bottom, East and
North faces and {0,1,2,1,3,2} for the other three, i.e. the pattern is a
function of the face alone and both patterns occur across the six faces. -/
theorem add_to_mesh_face_winding (q : MeshableQuad) (idx : Nat)
    (mesh : ChunkMeshAttributes) :
    (q.add_to_mesh idx mesh).indices =
      mesh.indices ++
        (if q.face = Face.Bottom ∨ q.face = Face.East ∨ q.face = Face.North
          then [0, 2, 1, 1, 2, 3] else [0, 1, 2, 1, 3, 2]).map (fun i => i + idx) ∧
    (q.add_to_mesh idx mesh).indices.length = mesh.indices.length + 6 ∧
    (MeshableQuad.add_to_mesh ⟨q.magnitude, Face.Bottom, q.quad, q.quad_tex⟩ idx mesh).indices ≠
      (MeshableQuad.add_to_mesh ⟨q.magnitude, Face.Top, q.quad, q.quad_tex⟩ idx mesh).indices := by
  refine ⟨?_, ?_, ?_⟩
  · rcases q with ⟨mag, face, quad, tex⟩
    cases face <;> simp [MeshableQuad.add_to_mesh]
  · rcases q with ⟨mag, face, quad, tex⟩
    cases face <;> simp [MeshableQuad.add_to_mesh]
  · intro hcontra
    simp only [MeshableQuad.add_to_mesh, List.map_cons, List.map_nil] at hcontra
    have h2 := List.append_cancel_left hcontra
    simp only [List.cons.injEq] at h2
    omega
